import Mathlib

/-!
Shallow embedding of `scripts/build.py`, the icon-sprite build pipeline:
hostname keys, icon loading with a `www.` fallback, icon normalization to a
fixed square, dominant-color extraction, deterministic grid layout of the
sprite sheet, WebP-then-JPEG encoding fallback, and re-attachment of the
grid offsets and colors to the site records.

Modelling conventions:
 - Python strings are Lean `String`s; Python string comparison is
   code-point lexicographic, embedded as `lexLe` over `String.data`.
 - Python dicts keyed by hostname are association lists with
   insert-or-replace (`dictInsert`), preserving insertion order as CPython
   dicts do.
 - The imaging library (Pillow) is external to the repository.  Its
   operations are modelled by their size/mode contracts: `resize` yields an
   image of exactly the requested size, `Image.new` an image of the given
   size, `alpha_composite` and `paste` leave the destination canvas's size
   and mode unchanged.  Pixel values produced by Lanczos resampling and by
   compositing are not modelled; no verified property depends on them.
 - Python float arithmetic in the dominant-color average and in the resize
   rounding is modelled as exact rational arithmetic; `int()` on the
   nonnegative values involved is the floor, and Python `round` is
   round-half-to-even (`pyRound`).
 - Fallible operations (image decoding, image encoding) return `Except`;
   a raised exception is the `error` case.
-/

namespace BuildPy

/-- Code-point lexicographic order on character lists, as Python compares
strings: decided at the first differing character, a strict prefix sorts
first. -/
def lexLe : List Char → List Char → Bool
  | [], _ => true
  | _ :: _, [] => false
  | a :: as, b :: bs =>
    if a.toNat < b.toNat then true
    else if b.toNat < a.toNat then false
    else lexLe as bs

/-- Python string comparison (`a <= b`) on hostnames. -/
def strLe (a b : String) : Bool :=
  lexLe a.data b.data

/-- The ordering relation under which `sorted(icons.keys())` sorts. -/
def hostLe (a b : String) : Prop := strLe a b = true

instance : DecidableRel hostLe :=
  fun a b => inferInstanceAs (Decidable (strLe a b = true))

/-- Pixel modes of the image model (the pipeline only uses RGB and RGBA). -/
inductive PixMode : Type
  | RGB : PixMode
  | RGBA : PixMode
deriving DecidableEq

/-- Model of a Pillow raster image: mode, pixel size, and pixel data
(RGBA quadruples; for RGB images the fourth channel is ignored). -/
structure Img : Type where
  mode : PixMode
  width : Nat
  height : Nat
  data : List (Nat × Nat × Nat × Nat)

/-- Model of `Image.new(mode, (w, h), color)`: a w by h canvas of the
constant color. -/
def imageNew (mode : PixMode) (w h : Nat) (c : Nat × Nat × Nat × Nat) : Img :=
  ⟨mode, w, h, List.replicate (w * h) c⟩

/-- Model of `img.convert("RGBA")`: the size is preserved; alpha is added.
Converted pixel values are carried through unchanged in the model. -/
def convertRGBA (img : Img) : Img :=
  { img with mode := PixMode.RGBA }

/-- Model of `img.convert("RGB")`: the size is preserved; alpha is dropped.
Converted pixel values are carried through unchanged in the model. -/
def convertRGB (img : Img) : Img :=
  { img with mode := PixMode.RGB }

/-- Model of `img.resize((nw, nh), Image.LANCZOS)`: an image of exactly the
requested size.  The resampled pixel values are not modelled. -/
def resizeLanczos (img : Img) (nw nh : Nat) : Img :=
  ⟨img.mode, nw, nh, List.replicate (nw * nh) (0, 0, 0, 0)⟩

/-- Model of `canvas.alpha_composite(src, (x, y))`: compositing draws onto
the canvas, whose mode and size are unchanged.  Composited pixel values are
not modelled. -/
def alphaComposite (canvas : Img) (src : Img) (x y : Nat) : Img :=
  canvas

/-- Model of `canvas.paste(src, (x, y))`: pasting draws onto the canvas,
whose mode and size are unchanged.  Pasted pixel values are not modelled. -/
def pasteImg (canvas : Img) (src : Img) (x y : Nat) : Img :=
  canvas

/-- Model of `img.getdata()` on an RGB image: the pixels as (r, g, b)
triples, row-major. -/
def getdataRGB (img : Img) : List (Nat × Nat × Nat) :=
  img.data.map fun p => (p.1, p.2.1, p.2.2.1)

/-- Sprite config constant `ICON_SIZE` from `build.py`. -/
def ICON_SIZE : Nat := 24

/-- Sprite config constant `SPRITE_COLS` from `build.py`. -/
def SPRITE_COLS : Nat := 12

/-- Python `round` on a rational: nearest integer, ties to even. -/
def pyRound (q : ℚ) : ℤ :=
  let f := ⌊q⌋
  if q - f < 1 / 2 then f
  else if 1 / 2 < q - f then f + 1
  else if f % 2 = 0 then f else f + 1

/-- Embedding of `_strip_www`: drop a leading literal `www.`. -/
def _strip_www (host : String) : String :=
  match host.data with
  | 'w' :: 'w' :: 'w' :: '.' :: rest => String.mk rest
  | _ => host

/-- Lowercase an ASCII character, as URL parsing lowercases hostnames. -/
def asciiLower (c : Char) : Char :=
  if 65 ≤ c.toNat ∧ c.toNat ≤ 90 then Char.ofNat (c.toNat + 32) else c

/-- The characters after the first `://`, if any. -/
def afterSchemeSep : List Char → Option (List Char)
  | ':' :: '/' :: '/' :: rest => some rest
  | _ :: rest => afterSchemeSep rest
  | [] => none

/-- The network-location part: characters up to the first `/`, `?` or `#`. -/
def takeNetloc : List Char → List Char
  | [] => []
  | c :: rest =>
    if c = '/' ∨ c = '?' ∨ c = '#' then [] else c :: takeNetloc rest

/-- The characters after the last `@` (drops any userinfo). -/
def afterLastAt (l : List Char) : List Char :=
  l.foldl (fun acc c => if c = '@' then [] else acc ++ [c]) []

/-- The characters before a `:` port separator. -/
def takeHostPart : List Char → List Char
  | [] => []
  | c :: rest => if c = ':' then [] else c :: takeHostPart rest

/-- Embedding of `_hostname`: `urlparse(url).hostname or ""`, modelled for
URLs of the shape `scheme://[user@]host[:port][/path...]` (no IPv6
brackets): the host component, ASCII-lowercased; the empty string when the
URL has no `://` and hence no network location. -/
def _hostname (url : String) : String :=
  match afterSchemeSep url.data with
  | none => ("")
  | some rest =>
    String.mk ((takeHostPart (afterLastAt (takeNetloc rest))).map asciiLower)

/-- Hex digit character, lowercase, as Python `%x` formatting. -/
def hexDigit (n : Nat) : Char :=
  Char.ofNat (if n < 10 then 48 + n else 87 + n)

/-- Python `%02x` of a byte value (all formatted values are at most 255,
so exactly two digits are produced). -/
def hexByte (n : Nat) : String :=
  String.mk [hexDigit (n / 16 % 16), hexDigit (n % 16)]

/-- Embedding of `normalize_icon_to_rgb_white_bg`: convert to RGBA, fit
inside the `ICON_SIZE` square preserving aspect ratio (at least 1 pixel per
axis), alpha-composite centred onto a white RGBA canvas, convert to RGB. -/
def normalize_icon_to_rgb_white_bg (img : Img) : Img :=
  let rgba := convertRGBA img
  let w := rgba.width
  let h := rgba.height
  if w = 0 ∨ h = 0 then imageNew PixMode.RGB ICON_SIZE ICON_SIZE (255, 255, 255, 255)
  else
    let scale : ℚ := min ((ICON_SIZE : ℚ) / w) ((ICON_SIZE : ℚ) / h)
    let nw := max 1 (pyRound (w * scale)).toNat
    let nh := max 1 (pyRound (h * scale)).toNat
    let resized := resizeLanczos rgba nw nh
    let canvas := imageNew PixMode.RGBA ICON_SIZE ICON_SIZE (255, 255, 255, 255)
    let x := (ICON_SIZE - nw) / 2
    let y := (ICON_SIZE - nh) / 2
    convertRGB (alphaComposite canvas resized x y)

/-- Embedding of `extract_dominant_color`: filter out near-white and
near-black pixels, average the survivors channelwise, pastelize by blending
toward white with ratio 0.25, format as a hex color string. -/
def extract_dominant_color (img_rgb : Img) : String :=
  let pixels := getdataRGB img_rgb
  let filtered := pixels.filter fun p =>
    (!(decide (245 < p.1) && decide (245 < p.2.1) && decide (245 < p.2.2))) &&
    (!(decide (p.1 < 10) && decide (p.2.1 < 10) && decide (p.2.2 < 10)))
  if filtered.isEmpty then ("#f3f4f6")
  else
    let len : ℚ := (filtered.length : ℚ)
    let r : ℚ := (((filtered.map fun p => p.1).sum : Nat) : ℚ) / len
    let g : ℚ := (((filtered.map fun p => p.2.1).sum : Nat) : ℚ) / len
    let b : ℚ := (((filtered.map fun p => p.2.2).sum : Nat) : ℚ) / len
    let blend : ℚ := 0.25
    let r2 : ℤ := ⌊r + (255 - r) * blend⌋
    let g2 : ℤ := ⌊g + (255 - g) * blend⌋
    let b2 : ℤ := ⌊b + (255 - b) * blend⌋
    ("#") ++ hexByte r2.toNat ++ hexByte g2.toNat ++ hexByte b2.toNat

/-- Insert-or-replace on an association list, as assignment into a CPython
dict: an existing key keeps its position and gets the new value, a new key
is appended. -/
def dictInsert {β : Type} : List (String × β) → String → β → List (String × β)
  | [], k, v => [(k, v)]
  | (k0, v0) :: rest, k, v =>
    if k0 = k then (k0, v) :: rest else (k0, v0) :: dictInsert rest k v

/-- One iteration of the `load_icons_by_hostnames` loop for a single
hostname.  `fexists c` models `(ICONS_DIR / (c + ".png")).exists()`;
`decodeImage c` models `Image.open` on that file, with `error` for an
unreadable or broken icon file (the caught exception). -/
def loadStep (fexists : String → Bool) (decodeImage : String → Except Unit Img)
    (icons : List (String × Img × String)) (host : String) :
    List (String × Img × String) :=
  if host = ("") then icons
  else
    let no_www := _strip_www host
    let candidates := [host] ++ (if no_www ≠ host then [no_www] else [])
    match candidates.find? (fun c => fexists c) with
    | none => icons
    | some chosen_host =>
      match decodeImage chosen_host with
      | .error _ => icons
      | .ok img =>
        let icon_rgb := normalize_icon_to_rgb_white_bg img
        let color := extract_dominant_color icon_rgb
        dictInsert icons chosen_host (icon_rgb, color)

/-- Embedding of `load_icons_by_hostnames`: resolve each hostname to an
icon file (exact name first, then the `www.`-stripped name), decode and
normalize it, and record it under the matched key; hostnames with no
readable icon are skipped. -/
def load_icons_by_hostnames (fexists : String → Bool)
    (decodeImage : String → Except Unit Img) (hostnames : List String) :
    List (String × Img × String) :=
  hostnames.foldl (loadStep fexists decodeImage) []

/-- The base64 alphabet. -/
def base64Chars : List Char :=
  ("ABCDEFGHIJKLMNOPQRSTUVWXYZabcdefghijklmnopqrstuvwxyz0123456789+/").data

/-- The base64 character of a sextet value. -/
def base64Char (n : Nat) : Char :=
  base64Chars.getD n ('A')

/-- Standard base64 encoding of a byte list, with `=` padding, as
`base64.b64encode`. -/
def base64Encode : List Nat → String
  | [] => ("")
  | [a] =>
    String.mk [base64Char (a / 4 % 64), base64Char (a % 4 * 16)] ++ ("==")
  | [a, b] =>
    String.mk [base64Char (a / 4 % 64), base64Char (a % 4 * 16 + b / 16),
      base64Char (b % 16 * 4)] ++ ("=")
  | a :: b :: c :: rest =>
    String.mk [base64Char (a / 4 % 64), base64Char (a % 4 * 16 + b / 16),
      base64Char (b % 16 * 4 + c / 64), base64Char (c % 64)] ++ base64Encode rest

/-- Embedding of `save_sprite_to_data_uri`.  The two Pillow encoders are
external; they are passed in as fallible byte producers: `encodeWEBP`
models `sprite_rgb.save(buf, format="WEBP", ...)` and `encodeJPEG` models
the JPEG save, each returning the bytes written or the raised exception. -/
def save_sprite_to_data_uri (encodeWEBP encodeJPEG : Img → Except Unit (List Nat))
    (sprite_rgb : Img) : Except Unit (String × String) :=
  match encodeWEBP sprite_rgb with
  | .ok bytes => .ok (("data:image/webp;base64,") ++ base64Encode bytes, ("image/webp"))
  | .error _ =>
    match encodeJPEG sprite_rgb with
    | .ok bytes => .ok (("data:image/jpeg;base64,") ++ base64Encode bytes, ("image/jpeg"))
    | .error e => .error e

/-- The sorted hostname list `hosts = sorted(icons.keys())`. -/
def sprite_hosts (icons : List (String × Img × String)) : List String :=
  (icons.map Prod.fst).insertionSort hostLe

/-- The row count `rows = int(math.ceil(n / cols))`. -/
def sprite_rows (n : Nat) : Nat :=
  (n + SPRITE_COLS - 1) / SPRITE_COLS

/-- Lookup `icons[host]`.  In `build_sprite_and_positions` the looked-up
hosts are exactly the dict's keys, so the default is never taken (Python
would raise `KeyError`). -/
def dictGet (icons : List (String × Img × String)) (host : String) : Img × String :=
  (List.lookup host icons).getD (imageNew PixMode.RGB 0 0 (0, 0, 0, 0), (""))

/-- The pixel cell of the icon at sorted index `i`:
`((i % cols) * ICON_SIZE, (i // cols) * ICON_SIZE)`. -/
def sprite_cell (i : Nat) : Nat × Nat :=
  ((i % SPRITE_COLS) * ICON_SIZE, (i / SPRITE_COLS) * ICON_SIZE)

/-- The composite sprite canvas: a white RGB canvas of `cols * ICON_SIZE`
by `rows * ICON_SIZE` pixels with each icon pasted at its cell. -/
def sprite_sheet (icons : List (String × Img × String)) : Img :=
  let hosts := sprite_hosts icons
  let base := imageNew PixMode.RGB (SPRITE_COLS * ICON_SIZE)
    (sprite_rows hosts.length * ICON_SIZE) (255, 255, 255, 255)
  hosts.enum.foldl
    (fun spr p =>
      pasteImg spr (dictGet icons p.2).1 (sprite_cell p.1).1 (sprite_cell p.1).2)
    base

/-- The positions dict built by the layout loop. -/
def sprite_positions (icons : List (String × Img × String)) :
    List (String × (Nat × Nat)) :=
  (sprite_hosts icons).enum.map fun p => (p.2, sprite_cell p.1)

/-- The colors dict built by the layout loop. -/
def sprite_colors (icons : List (String × Img × String)) :
    List (String × String) :=
  (sprite_hosts icons).map fun h => (h, (dictGet icons h).2)

/-- The background-size string, e.g. `288px 120px`. -/
def sprite_bg (icons : List (String × Img × String)) : String :=
  toString (SPRITE_COLS * ICON_SIZE) ++ ("px ") ++
    toString (sprite_rows (sprite_hosts icons).length * ICON_SIZE) ++ ("px")

/-- Embedding of `build_sprite_and_positions`: on an empty icon dict, a
1 by 1 white sentinel sprite with empty maps; otherwise the sorted grid
layout.  The returned tuple is (data URI, background-size, positions,
colors); an encoder failure propagates as `error`. -/
def build_sprite_and_positions (encodeWEBP encodeJPEG : Img → Except Unit (List Nat))
    (icons : List (String × Img × String)) :
    Except Unit (String × String × List (String × (Nat × Nat)) × List (String × String)) :=
  if icons.isEmpty then
    match save_sprite_to_data_uri encodeWEBP encodeJPEG
        (imageNew PixMode.RGB 1 1 (255, 255, 255, 255)) with
    | .error e => .error e
    | .ok (data_uri, _mime) => .ok (data_uri, ("1px 1px"), [], [])
  else
    match save_sprite_to_data_uri encodeWEBP encodeJPEG (sprite_sheet icons) with
    | .error e => .error e
    | .ok (data_uri, _mime) =>
      .ok (data_uri, sprite_bg icons, sprite_positions icons, sprite_colors icons)

/-- Embedding of the `Site` dataclass. -/
structure Site : Type where
  name : String
  url : String
  category : String
  tags : List String
  icon_x : Option Nat := none
  icon_y : Option Nat := none
  icon_color : Option String := none
deriving DecidableEq

/-- The body of the `attach_icon_data_to_sites` loop for one site: the
exact hostname is looked up in the positions dict first, then the
`www.`-stripped hostname; on a match a new `Site` carrying the pixel
offset and `colors.get(key)` is produced, otherwise the site is kept
unchanged. -/
def attachSite (positions : List (String × (Nat × Nat)))
    (colors : List (String × String)) (s : Site) : Site :=
  let host := _hostname s.url
  let host2 := _strip_www host
  let key : Option String :=
    if (List.lookup host positions).isSome then some host
    else if (List.lookup host2 positions).isSome then some host2
    else none
  match key with
  | none => s
  | some k =>
    match List.lookup k positions with
    | none => s
    | some xy =>
      ⟨s.name, s.url, s.category, s.tags, some xy.1, some xy.2,
        List.lookup k colors⟩

/-- Embedding of `attach_icon_data_to_sites`. -/
def attach_icon_data_to_sites (sites : List Site)
    (positions : List (String × (Nat × Nat)))
    (colors : List (String × String)) : List Site :=
  sites.map (attachSite positions colors)

/-- The positions component of a `build_sprite_and_positions` result (empty
on error). -/
def posOf (r : Except Unit (String × String × List (String × (Nat × Nat)) × List (String × String))) :
    List (String × (Nat × Nat)) :=
  match r with
  | .ok t => t.2.2.1
  | .error _ => []

/-- The colors component of a `build_sprite_and_positions` result (empty
on error). -/
def colorsOf (r : Except Unit (String × String × List (String × (Nat × Nat)) × List (String × String))) :
    List (String × String) :=
  match r with
  | .ok t => t.2.2.2
  | .error _ => []

/-! Test fixtures used by the concrete witnesses: a pair of stub encoders
(one that always succeeds, one that always raises), a decodable square
test image, small icon dicts, fake icon directories and a site record. -/

/-- A stub encoder that always succeeds, recording the canvas size. -/
def okEnc : Img → Except Unit (List Nat) :=
  fun img => .ok [img.width % 256, img.height % 256]

/-- A stub encoder that always raises. -/
def failEnc : Img → Except Unit (List Nat) :=
  fun _ => .error ()

/-- A 24 by 24 test image. -/
def img24 : Img := imageNew PixMode.RGB 24 24 (10, 20, 30, 255)

/-- A decoder that always succeeds (every icon file is readable). -/
def decOk : String → Except Unit Img := fun _ => .ok img24

/-- A three-icon dict, deliberately not in sorted order. -/
def iconsABC : List (String × Img × String) :=
  [("b.com", img24, "#222222"), ("a.com", img24, "#111111"), ("c.com", img24, "#333333")]

/-- An icon directory holding only `example.com.png`. -/
def fexStripped : String → Bool := fun s => s == "example.com"

/-- An icon directory holding only `www.example.com.png`. -/
def fexWww : String → Bool := fun s => s == "www.example.com"

/-- A site whose URL carries the bare hostname `example.com`. -/
def siteEx : Site := ⟨"Example", "https://example.com/", "Cat", [], none, none, none⟩

/-- A twelve-icon dict filling row 0 of the grid. -/
def icons12 : List (String × Img × String) :=
  [("a.com", img24, "#101010"), ("b.com", img24, "#101010"),
   ("c.com", img24, "#101010"), ("d.com", img24, "#101010"),
   ("e.com", img24, "#101010"), ("f.com", img24, "#101010"),
   ("g.com", img24, "#101010"), ("h.com", img24, "#101010"),
   ("i.com", img24, "#101010"), ("j.com", img24, "#101010"),
   ("k.com", img24, "#101010"), ("l.com", img24, "#101010")]

/-- Spec-side predicate: a near-white pixel, all three channels above
245. -/
def nearWhite (p : Nat × Nat × Nat) : Prop :=
  245 < p.1 ∧ 245 < p.2.1 ∧ 245 < p.2.2

/-- Spec-side predicate: a near-black pixel, all three channels below
10. -/
def nearBlack (p : Nat × Nat × Nat) : Prop :=
  p.1 < 10 ∧ p.2.1 < 10 ∧ p.2.2 < 10

instance : DecidablePred nearWhite :=
  fun p => decidable_of_iff (245 < p.1 ∧ 245 < p.2.1 ∧ 245 < p.2.2) Iff.rfl

instance : DecidablePred nearBlack :=
  fun p => decidable_of_iff (p.1 < 10 ∧ p.2.1 < 10 ∧ p.2.2 < 10) Iff.rfl

/-- Spec-side filtering: exactly the pixels that are neither near-white
nor near-black survive. -/
def keptPixels (img : Img) : List (Nat × Nat × Nat) :=
  (getdataRGB img).filter fun p => decide (¬ nearWhite p ∧ ¬ nearBlack p)

/-- Spec-side channel average over the surviving pixels. -/
def channelAvg (l : List Nat) : ℚ :=
  ((l.sum : Nat) : ℚ) / (l.length : ℚ)

/-- Spec-side pastel blend toward 255 by the fixed ratio 0.25:
`result = avg + (255 - avg) * 0.25`. -/
def pastel (avg : ℚ) : ℚ :=
  avg + (255 - avg) * (25 / 100)

/-- Spec-side six-hex-digit color formatting of the three blended
channels. -/
def sixHexColor (r g b : ℚ) : String :=
  ("#") ++ hexByte ⌊r⌋.toNat ++ hexByte ⌊g⌋.toNat ++ hexByte ⌊b⌋.toNat

theorem lexLe_trans : ∀ as bs cs : List Char,
    lexLe as bs = true → lexLe bs cs = true → lexLe as cs = true := by
  intro as
  induction as with
  | nil => intro bs cs _ _; simp [lexLe]
  | cons a as ih =>
    intro bs cs hab hbc
    cases bs with
    | nil => simp [lexLe] at hab
    | cons b bs =>
      cases cs with
      | nil => simp [lexLe] at hbc
      | cons c cs =>
        simp only [lexLe] at hab hbc ⊢
        split_ifs at hab hbc ⊢ <;>
          first
            | rfl
            | contradiction
            | exact ih bs cs hab hbc
            | omega
            | (exfalso; omega)

theorem lexLe_total : ∀ as bs : List Char,
    lexLe as bs = true ∨ lexLe bs as = true := by
  intro as
  induction as with
  | nil => intro bs; left; simp [lexLe]
  | cons a as ih =>
    intro bs
    cases bs with
    | nil => right; simp [lexLe]
    | cons b bs =>
      simp only [lexLe]
      rcases ih bs with h | h <;> split_ifs <;>
        first
          | (left; rfl)
          | (right; rfl)
          | (left; exact h)
          | (right; exact h)
          | omega
          | (exfalso; omega)

theorem char_eq_of_toNat_eq {a b : Char} (h : a.toNat = b.toNat) : a = b :=
  Char.eq_of_val_eq (UInt32.toNat.inj h)

theorem lexLe_antisymm : ∀ as bs : List Char,
    lexLe as bs = true → lexLe bs as = true → as = bs := by
  intro as
  induction as with
  | nil =>
    intro bs _ hba
    cases bs with
    | nil => rfl
    | cons b bs => simp [lexLe] at hba
  | cons a as ih =>
    intro bs hab hba
    cases bs with
    | nil => simp [lexLe] at hab
    | cons b bs =>
      simp only [lexLe] at hab hba
      split_ifs at hab hba <;> first
        | contradiction
        | (exfalso; omega)
        | (have hc : a = b := char_eq_of_toNat_eq (by omega)
           rw [hc, ih bs hab hba])

instance : IsTrans String hostLe where
  trans a b c hab hbc := lexLe_trans a.data b.data c.data hab hbc

instance : IsTotal String hostLe where
  total a b := lexLe_total a.data b.data

instance : IsAntisymm String hostLe where
  antisymm a b hab hba := by
    have h := lexLe_antisymm a.data b.data hab hba
    cases a; cases b; simp_all


/-! Helper lemmas about the layout components. -/

theorem sprite_hosts_length (icons : List (String × Img × String)) :
    (sprite_hosts icons).length = icons.length := by
  unfold sprite_hosts
  rw [(List.perm_insertionSort hostLe (icons.map Prod.fst)).length_eq, List.length_map]

theorem sprite_hosts_mem (icons : List (String × Img × String)) (a : String) :
    a ∈ sprite_hosts icons ↔ a ∈ icons.map Prod.fst :=
  (List.perm_insertionSort hostLe (icons.map Prod.fst)).mem_iff

theorem sprite_hosts_sorted (icons : List (String × Img × String)) :
    List.Sorted hostLe (sprite_hosts icons) :=
  List.sorted_insertionSort hostLe (icons.map Prod.fst)

theorem foldl_const {α β : Type} (l : List β) (a : α) :
    l.foldl (fun x _ => x) a = a := by
  induction l generalizing a with
  | nil => rfl
  | cons b l ih => exact ih a

theorem sprite_sheet_eq (icons : List (String × Img × String)) :
    sprite_sheet icons =
      imageNew PixMode.RGB (SPRITE_COLS * ICON_SIZE)
        (sprite_rows (sprite_hosts icons).length * ICON_SIZE) (255, 255, 255, 255) := by
  unfold sprite_sheet
  simp only [pasteImg]
  exact foldl_const _ _

theorem sprite_positions_keys (icons : List (String × Img × String)) :
    (sprite_positions icons).map Prod.fst = sprite_hosts icons := by
  unfold sprite_positions
  rw [List.map_map]
  exact List.enum_map_snd (sprite_hosts icons)

theorem sprite_colors_keys (icons : List (String × Img × String)) :
    (sprite_colors icons).map Prod.fst = sprite_hosts icons := by
  unfold sprite_colors
  rw [List.map_map]
  rw [show (Prod.fst ∘ fun h : String => (h, (dictGet icons h).2)) = id from rfl]
  exact List.map_id _

/-- Unfolding of a successful `build_sprite_and_positions`: the positions
and colors components are always the loop results (both empty on the empty
dict), and on a non-empty dict the background-size string is `sprite_bg`. -/
theorem build_ok_components (encodeWEBP encodeJPEG : Img → Except Unit (List Nat))
    (icons : List (String × Img × String)) (uri bg : String)
    (pos : List (String × (Nat × Nat))) (colors : List (String × String))
    (h : build_sprite_and_positions encodeWEBP encodeJPEG icons = .ok (uri, bg, pos, colors)) :
    pos = sprite_positions icons ∧ colors = sprite_colors icons ∧
      (icons ≠ [] → bg = sprite_bg icons) := by
  unfold build_sprite_and_positions at h
  by_cases hic : icons.isEmpty = true
  · have hnil : icons = [] := List.isEmpty_iff.mp hic
    subst hnil
    rw [if_pos hic] at h
    rcases hsave : save_sprite_to_data_uri encodeWEBP encodeJPEG
        (imageNew PixMode.RGB 1 1 (255, 255, 255, 255)) with e | ⟨u, m⟩ <;>
      rw [hsave] at h
    · exact absurd h (by simp)
    · simp only [Except.ok.injEq, Prod.mk.injEq] at h
      obtain ⟨h1, h2, h3, h4⟩ := h
      exact ⟨h3.symm, h4.symm, fun hne => absurd rfl hne⟩
  · rw [if_neg hic] at h
    rcases hsave : save_sprite_to_data_uri encodeWEBP encodeJPEG (sprite_sheet icons)
        with e | ⟨u, m⟩ <;> rw [hsave] at h
    · exact absurd h (by simp)
    · simp only [Except.ok.injEq, Prod.mk.injEq] at h
      obtain ⟨h1, h2, h3, h4⟩ := h
      exact ⟨h3.symm, h4.symm, fun _ => h2.symm⟩

/-- C4: For every decodable input image, regardless of its width, height,
aspect ratio, or color mode, `normalize_icon_to_rgb_white_bg` returns an
image of exactly `ICON_SIZE` by `ICON_SIZE` pixels (24 by 24); no other
size ever escapes the Normalizer. -/
theorem normalize_output_size (img : Img) :
    (normalize_icon_to_rgb_white_bg img).width = 24 ∧
      (normalize_icon_to_rgb_white_bg img).height = 24 ∧ ICON_SIZE = 24 := by
  simp only [normalize_icon_to_rgb_white_bg]
  split <;> exact ⟨rfl, rfl, rfl⟩

/-- C6: `save_sprite_to_data_uri` first attempts the WebP encoder; on an
encoding exception it re-encodes the same in-memory canvas as JPEG; the
returned data URI carries the MIME type of whichever codec succeeded; and
when both codecs fail the error propagates to the caller. -/
theorem save_sprite_codec_fallback (encodeWEBP encodeJPEG : Img → Except Unit (List Nat))
    (sprite_rgb : Img) :
    (∀ bytes, encodeWEBP sprite_rgb = .ok bytes →
      save_sprite_to_data_uri encodeWEBP encodeJPEG sprite_rgb =
        .ok (("data:image/webp;base64,") ++ base64Encode bytes, ("image/webp"))) ∧
    (∀ e bytes, encodeWEBP sprite_rgb = .error e → encodeJPEG sprite_rgb = .ok bytes →
      save_sprite_to_data_uri encodeWEBP encodeJPEG sprite_rgb =
        .ok (("data:image/jpeg;base64,") ++ base64Encode bytes, ("image/jpeg"))) ∧
    (∀ e e2, encodeWEBP sprite_rgb = .error e → encodeJPEG sprite_rgb = .error e2 →
      save_sprite_to_data_uri encodeWEBP encodeJPEG sprite_rgb = .error e2) := by
  refine ⟨?_, ?_, ?_⟩ <;> intros <;> simp [save_sprite_to_data_uri, *]

/-- Witness for C6 at concrete encoders and a concrete canvas: WebP
success, WebP failure with JPEG fallback, and double failure. -/
theorem save_sprite_codec_fallback_witness :
    save_sprite_to_data_uri okEnc okEnc img24 =
      .ok (("data:image/webp;base64,") ++ base64Encode [24, 24], ("image/webp")) ∧
    save_sprite_to_data_uri failEnc okEnc img24 =
      .ok (("data:image/jpeg;base64,") ++ base64Encode [24, 24], ("image/jpeg")) ∧
    save_sprite_to_data_uri failEnc failEnc img24 = .error () :=
  ⟨(save_sprite_codec_fallback okEnc okEnc img24).1 [24, 24] rfl,
   (save_sprite_codec_fallback failEnc okEnc img24).2.1 () [24, 24] rfl rfl,
   (save_sprite_codec_fallback failEnc failEnc img24).2.2 () () rfl rfl⟩

/-- C7: On an empty icon mapping, `build_sprite_and_positions` does not
fail: it returns an empty PositionMap, an empty ColorMap, the encoding of
a sentinel 1 by 1 white canvas, and the size string `1px 1px`. -/
theorem build_empty_sentinel (encodeWEBP encodeJPEG : Img → Except Unit (List Nat))
    (uri mime : String)
    (h : save_sprite_to_data_uri encodeWEBP encodeJPEG
      (imageNew PixMode.RGB 1 1 (255, 255, 255, 255)) = .ok (uri, mime)) :
    build_sprite_and_positions encodeWEBP encodeJPEG [] = .ok (uri, ("1px 1px"), [], []) := by
  unfold build_sprite_and_positions
  rw [h]
  rfl

/-- Witness for C7 at the concrete stub encoder. -/
theorem build_empty_sentinel_witness :
    build_sprite_and_positions okEnc okEnc [] =
      .ok (("data:image/webp;base64,AQE="), ("1px 1px"), [], []) :=
  build_empty_sentinel okEnc okEnc ("data:image/webp;base64,AQE=") ("image/webp") rfl

theorem enumFrom_pairwise_fst_lt {α : Type} (n : Nat) (l : List α) :
    (l.enumFrom n).Pairwise (fun a b => a.1 < b.1) := by
  induction l generalizing n with
  | nil => simp
  | cons x xs ih =>
    rw [List.enumFrom_cons]
    refine List.Pairwise.cons ?_ (ih (n + 1))
    intro b hb
    obtain ⟨i, y⟩ := b
    have := List.mem_enumFrom hb
    simp only
    omega

theorem enum_pairwise_fst_lt {α : Type} (l : List α) :
    l.enum.Pairwise (fun a b => a.1 < b.1) :=
  enumFrom_pairwise_fst_lt 0 l

theorem cell_injective (i j : Nat) (h : sprite_cell i = sprite_cell j) : i = j := by
  simp only [sprite_cell, SPRITE_COLS, ICON_SIZE, Prod.mk.injEq] at h
  omega

theorem lookup_append {β : Type} (k : String) (l₁ l₂ : List (String × β)) :
    List.lookup k (l₁ ++ l₂) =
      match List.lookup k l₁ with
      | some v => some v
      | none => List.lookup k l₂ := by
  induction l₁ with
  | nil => rfl
  | cons p rest ih =>
    obtain ⟨k0, v0⟩ := p
    by_cases hk : k == k0
    · simp [List.lookup, hk]
    · simp only [Bool.not_eq_true] at hk
      simp [List.lookup, hk, ih]

/-- Sorting a key list with a new maximal element appended equals the
sorted original with that element appended at the end. -/
theorem insertionSort_append_last (keys : List String) (hnew : String)
    (hgt : ∀ k ∈ keys, hostLe k hnew) :
    (keys ++ [hnew]).insertionSort hostLe = keys.insertionSort hostLe ++ [hnew] := by
  apply List.eq_of_perm_of_sorted (r := hostLe)
  · exact (List.perm_insertionSort hostLe (keys ++ [hnew])).trans
      ((List.perm_insertionSort hostLe keys).symm.append_right [hnew])
  · exact List.sorted_insertionSort hostLe (keys ++ [hnew])
  · refine List.pairwise_append.mpr
      ⟨List.sorted_insertionSort hostLe keys, List.pairwise_singleton _ _, ?_⟩
    intro a ha b hb
    have hak : a ∈ keys := (List.perm_insertionSort hostLe keys).mem_iff.mp ha
    have hbe : b = hnew := by simpa using hb
    rw [hbe]
    exact hgt a hak

/-- C1: For every non-empty icon mapping, `build_sprite_and_positions`
lays out the icons in ascending lexicographic hostname order, assigning
the icon at 0-based sorted index `i` the pixel cell
`((i mod SPRITE_COLS) * ICON_SIZE, (i div SPRITE_COLS) * ICON_SIZE)` on a
canvas of width `SPRITE_COLS * ICON_SIZE` and height
`ceil(n / SPRITE_COLS) * ICON_SIZE`, and the background-size string
carries exactly those dimensions. -/
theorem sprite_layout_deterministic (encodeWEBP encodeJPEG : Img → Except Unit (List Nat))
    (icons : List (String × Img × String)) (hne : icons ≠ []) (uri bg : String)
    (pos : List (String × (Nat × Nat))) (colors : List (String × String))
    (h : build_sprite_and_positions encodeWEBP encodeJPEG icons = .ok (uri, bg, pos, colors)) :
    List.Sorted hostLe (sprite_hosts icons) ∧
    pos = (sprite_hosts icons).enum.map
      (fun p => (p.2, ((p.1 % SPRITE_COLS) * ICON_SIZE, (p.1 / SPRITE_COLS) * ICON_SIZE))) ∧
    (sprite_sheet icons).width = SPRITE_COLS * ICON_SIZE ∧
    (sprite_sheet icons).height = sprite_rows icons.length * ICON_SIZE ∧
    bg = toString (SPRITE_COLS * ICON_SIZE) ++ ("px ") ++
      toString (sprite_rows icons.length * ICON_SIZE) ++ ("px") := by
  obtain ⟨hp, hc, hb⟩ := build_ok_components encodeWEBP encodeJPEG icons uri bg pos colors h
  refine ⟨sprite_hosts_sorted icons, ?_, ?_, ?_, ?_⟩
  · rw [hp]; rfl
  · rw [sprite_sheet_eq]; rfl
  · rw [sprite_sheet_eq, sprite_hosts_length]; rfl
  · rw [hb hne]; unfold sprite_bg; rw [sprite_hosts_length]

/-- Witness for C1 at the three-hostname example of the claim: hostnames
`a.com`, `b.com`, `c.com` yield PositionMap `a.com` at (0,0), `b.com` at
(24,0), `c.com` at (48,0) and size string `288px 24px`. -/
theorem sprite_layout_deterministic_witness :
    build_sprite_and_positions okEnc okEnc iconsABC =
      .ok (("data:image/webp;base64,IBg="), ("288px 24px"),
        [("a.com", (0, 0)), ("b.com", (24, 0)), ("c.com", (48, 0))],
        [("a.com", "#111111"), ("b.com", "#222222"), ("c.com", "#333333")]) ∧
    (List.Sorted hostLe (sprite_hosts iconsABC) ∧
      [("a.com", (0, 0)), ("b.com", (24, 0)), ("c.com", (48, 0))] =
        (sprite_hosts iconsABC).enum.map
          (fun p => (p.2, ((p.1 % SPRITE_COLS) * ICON_SIZE, (p.1 / SPRITE_COLS) * ICON_SIZE))) ∧
      (sprite_sheet iconsABC).width = SPRITE_COLS * ICON_SIZE ∧
      (sprite_sheet iconsABC).height = sprite_rows iconsABC.length * ICON_SIZE ∧
      ("288px 24px") = toString (SPRITE_COLS * ICON_SIZE) ++ ("px ") ++
        toString (sprite_rows iconsABC.length * ICON_SIZE) ++ ("px")) :=
  ⟨rfl, sprite_layout_deterministic okEnc okEnc iconsABC (by simp [iconsABC]) _ _ _ _ rfl⟩

/-- C8: For every build, the PositionMap is injective: no two entries of
the positions list returned by `build_sprite_and_positions` carry the same
pixel offset. -/
theorem positions_injective (encodeWEBP encodeJPEG : Img → Except Unit (List Nat))
    (icons : List (String × Img × String)) (uri bg : String)
    (pos : List (String × (Nat × Nat))) (colors : List (String × String))
    (h : build_sprite_and_positions encodeWEBP encodeJPEG icons = .ok (uri, bg, pos, colors)) :
    pos.Pairwise (fun p q => p.2 ≠ q.2) := by
  obtain ⟨hp, -, -⟩ := build_ok_components encodeWEBP encodeJPEG icons uri bg pos colors h
  rw [hp]
  unfold sprite_positions
  rw [List.pairwise_map]
  refine (enum_pairwise_fst_lt (sprite_hosts icons)).imp ?_
  intro a b hab hcell
  exact absurd (cell_injective a.1 b.1 hcell) (Nat.ne_of_lt hab)

/-- Witness for C8: the three cells of the example build are pairwise
distinct. -/
theorem positions_injective_witness :
    ([("a.com", (0, 0)), ("b.com", (24, 0)), ("c.com", (48, 0))] :
        List (String × (Nat × Nat))).Pairwise (fun p q => p.2 ≠ q.2) :=
  positions_injective okEnc okEnc iconsABC _ _ _ _ rfl

/-- C9: When a hostname sorting lexicographically after every existing
hostname is appended to an icon set, `build_sprite_and_positions` assigns
it the next grid cell in order, and the positions of all previously
present hostnames are unchanged from the build without it. -/
theorem append_preserves_layout (encodeWEBP encodeJPEG : Img → Except Unit (List Nat))
    (icons : List (String × Img × String)) (hnew : String) (v : Img × String)
    (uri bg : String) (pos : List (String × (Nat × Nat))) (colors : List (String × String))
    (uri2 bg2 : String) (pos2 : List (String × (Nat × Nat))) (colors2 : List (String × String))
    (hgt : ∀ k ∈ icons.map Prod.fst, hostLe k hnew)
    (h1 : build_sprite_and_positions encodeWEBP encodeJPEG icons = .ok (uri, bg, pos, colors))
    (h2 : build_sprite_and_positions encodeWEBP encodeJPEG (icons ++ [(hnew, v)]) =
      .ok (uri2, bg2, pos2, colors2)) :
    pos2 = pos ++ [(hnew, sprite_cell icons.length)] ∧
    ∀ k : String, k ≠ hnew → List.lookup k pos2 = List.lookup k pos := by
  obtain ⟨hp1, -, -⟩ := build_ok_components encodeWEBP encodeJPEG icons uri bg pos colors h1
  obtain ⟨hp2, -, -⟩ := build_ok_components encodeWEBP encodeJPEG (icons ++ [(hnew, v)])
    uri2 bg2 pos2 colors2 h2
  have hhosts : sprite_hosts (icons ++ [(hnew, v)]) = sprite_hosts icons ++ [hnew] := by
    unfold sprite_hosts
    rw [List.map_append]
    exact insertionSort_append_last _ _ hgt
  have hposs : sprite_positions (icons ++ [(hnew, v)]) =
      sprite_positions icons ++ [(hnew, sprite_cell icons.length)] := by
    unfold sprite_positions
    rw [hhosts, List.enum_append, List.map_append, sprite_hosts_length]
    rfl
  refine ⟨by rw [hp2, hp1, hposs], ?_⟩
  intro k hk
  rw [hp2, hp1, hposs, lookup_append]
  cases hl : List.lookup k (sprite_positions icons) with
  | some val => rfl
  | none =>
    have : (k == hnew) = false := beq_eq_false_iff_ne.mpr hk
    simp [List.lookup, this]

/-- Witness for C9 at the claim's example: a 13th hostname appended to a
full first row wraps to cell (0, 24) and the first twelve positions keep
their lookups. -/
theorem append_preserves_layout_witness :
    posOf (build_sprite_and_positions okEnc okEnc (icons12 ++ [("m.com", img24, "#101010")])) =
      posOf (build_sprite_and_positions okEnc okEnc icons12) ++ [("m.com", (0, 24))] ∧
    List.lookup ("a.com") (posOf (build_sprite_and_positions okEnc okEnc
      (icons12 ++ [("m.com", img24, "#101010")]))) = some (0, 0) := by
  have h := append_preserves_layout okEnc okEnc icons12 ("m.com") (img24, "#101010")
    _ _ _ _ _ _ _ _ (by decide) rfl rfl
  constructor
  · exact h.1
  · rw [show posOf (build_sprite_and_positions okEnc okEnc
      (icons12 ++ [("m.com", img24, "#101010")])) =
        posOf (build_sprite_and_positions okEnc okEnc icons12) ++ [("m.com", (0, 24))]
      from h.1]
    rfl

/-- Predicate characterizing whether a lookup succeeds. -/
theorem lookup_isSome_iff {β : Type} (k : String) (l : List (String × β)) :
    (List.lookup k l).isSome = true ↔ k ∈ l.map Prod.fst := by
  induction l with
  | nil => simp [List.lookup]
  | cons p rest ih =>
    obtain ⟨k0, v0⟩ := p
    by_cases hk : k = k0
    · subst hk; simp [List.lookup]
    · have hb : (k == k0) = false := beq_eq_false_iff_ne.mpr hk
      simp [List.lookup, hb, ih, hk]

/-- C10: positions and colors returned by `build_sprite_and_positions`
have exactly the same key list, so a site the Binder enriches with a grid
offset always receives a dominant color as well. -/
theorem positions_colors_same_keys (encodeWEBP encodeJPEG : Img → Except Unit (List Nat))
    (icons : List (String × Img × String)) (uri bg : String)
    (pos : List (String × (Nat × Nat))) (colors : List (String × String))
    (h : build_sprite_and_positions encodeWEBP encodeJPEG icons = .ok (uri, bg, pos, colors)) :
    pos.map Prod.fst = colors.map Prod.fst ∧
    ∀ s : Site, s.icon_x = none →
      ((attachSite pos colors s).icon_x).isSome = true →
      ((attachSite pos colors s).icon_color).isSome = true := by
  obtain ⟨hp, hc, -⟩ := build_ok_components encodeWEBP encodeJPEG icons uri bg pos colors h
  have hkeys : pos.map Prod.fst = colors.map Prod.fst := by
    rw [hp, hc, sprite_positions_keys, sprite_colors_keys]
  refine ⟨hkeys, ?_⟩
  intro s hx hsome
  unfold attachSite at hsome ⊢
  dsimp only at hsome ⊢
  by_cases h1 : (List.lookup (_hostname s.url) pos).isSome = true
  · simp only [h1, if_true] at hsome ⊢
    have hmem : _hostname s.url ∈ pos.map Prod.fst := (lookup_isSome_iff _ _).mp h1
    have hcol : (List.lookup (_hostname s.url) colors).isSome = true :=
      (lookup_isSome_iff _ _).mpr (hkeys ▸ hmem)
    obtain ⟨xy, hxy⟩ := Option.isSome_iff_exists.mp h1
    rw [hxy] at hsome ⊢
    simpa using hcol
  · simp only [Bool.not_eq_true] at h1
    simp only [h1, Bool.false_eq_true, if_false] at hsome ⊢
    by_cases h2 : (List.lookup (_strip_www (_hostname s.url)) pos).isSome = true
    · simp only [h2, if_true] at hsome ⊢
      have hmem : _strip_www (_hostname s.url) ∈ pos.map Prod.fst := (lookup_isSome_iff _ _).mp h2
      have hcol : (List.lookup (_strip_www (_hostname s.url)) colors).isSome = true :=
        (lookup_isSome_iff _ _).mpr (hkeys ▸ hmem)
      obtain ⟨xy, hxy⟩ := Option.isSome_iff_exists.mp h2
      rw [hxy] at hsome ⊢
      simpa using hcol
    · simp only [Bool.not_eq_true] at h2
      simp only [h2, Bool.false_eq_true, if_false] at hsome ⊢
      simp [hx] at hsome

/-- Witness for C10 at the example build and a site matching `a.com`. -/
theorem positions_colors_same_keys_witness :
    ([("a.com", (0, 0)), ("b.com", (24, 0)), ("c.com", (48, 0))] :
        List (String × (Nat × Nat))).map Prod.fst =
      ([("a.com", "#111111"), ("b.com", "#222222"), ("c.com", "#333333")] :
        List (String × String)).map Prod.fst ∧
    ((attachSite [("a.com", (0, 0)), ("b.com", (24, 0)), ("c.com", (48, 0))]
      [("a.com", "#111111"), ("b.com", "#222222"), ("c.com", "#333333")]
      ⟨"A", "https://a.com/", "Cat", [], none, none, none⟩).icon_color).isSome = true := by
  have h := positions_colors_same_keys okEnc okEnc iconsABC _ _ _ _ rfl
  exact ⟨h.1, h.2 ⟨"A", "https://a.com/", "Cat", [], none, none, none⟩ rfl rfl⟩

/-- C5: `extract_dominant_color` discards exactly the near-white and
near-black pixels; with no survivor it returns the fixed neutral fallback
`#f3f4f6`; otherwise it averages each channel independently over the
survivors, blends each average toward 255 by the ratio 0.25, and formats
the result as a six-hex-digit color string. -/
theorem extract_dominant_color_spec (img : Img) :
    extract_dominant_color img =
      if keptPixels img = [] then ("#f3f4f6")
      else sixHexColor
        (pastel (channelAvg ((keptPixels img).map fun p => p.1)))
        (pastel (channelAvg ((keptPixels img).map fun p => p.2.1)))
        (pastel (channelAvg ((keptPixels img).map fun p => p.2.2))) := by
  have hfil : (getdataRGB img).filter (fun p =>
      (!(decide (245 < p.1) && decide (245 < p.2.1) && decide (245 < p.2.2))) &&
      (!(decide (p.1 < 10) && decide (p.2.1 < 10) && decide (p.2.2 < 10)))) = keptPixels img := by
    unfold keptPixels
    apply List.filter_congr
    intro x _
    rw [Bool.eq_iff_iff]
    simp [nearWhite, nearBlack]
    omega
  have hq : (0.25 : ℚ) = 25 / 100 := by norm_num
  unfold extract_dominant_color
  dsimp only
  rw [hfil]
  by_cases hk : keptPixels img = []
  · rw [hk, if_pos rfl]
    rfl
  · have hke : (keptPixels img).isEmpty = false := by
      simpa [List.isEmpty_iff] using hk
    rw [hke, if_neg hk]
    simp only [Bool.false_eq_true, if_false, sixHexColor, pastel, channelAvg,
      List.length_map, hq]

theorem dictInsert_cons {β : Type} (k0 : String) (v0 : β) (rest : List (String × β))
    (k : String) (v : β) :
    dictInsert ((k0, v0) :: rest) k v =
      if k0 = k then (k0, v) :: rest else (k0, v0) :: dictInsert rest k v := rfl

theorem dictInsert_keys_mem {β : Type} (d : List (String × β)) (k a : String) (v : β) :
    a ∈ (dictInsert d k v).map Prod.fst ↔ a ∈ d.map Prod.fst ∨ a = k := by
  induction d with
  | nil => simp [dictInsert]
  | cons p rest ih =>
    obtain ⟨k0, v0⟩ := p
    rw [dictInsert_cons]
    by_cases hk : k0 = k
    · subst hk
      rw [if_pos rfl]
      simp only [List.map_cons, List.mem_cons]
      tauto
    · rw [if_neg hk]
      simp only [List.map_cons, List.mem_cons, ih]
      tauto

theorem loadStep_keys_mono (fex : String → Bool) (dec : String → Except Unit Img)
    (acc : List (String × Img × String)) (host a : String)
    (ha : a ∈ acc.map Prod.fst) : a ∈ (loadStep fex dec acc host).map Prod.fst := by
  unfold loadStep
  by_cases hh : host = ("")
  · rw [if_pos hh]; exact ha
  · rw [if_neg hh]
    dsimp only
    rcases hfind : List.find? (fun c => fex c)
        ([host] ++ if _strip_www host ≠ host then [_strip_www host] else []) with _ | c
    · exact ha
    · dsimp only
      rcases hdec : dec c with e | img
      · exact ha
      · exact (dictInsert_keys_mem acc c a _).mpr (Or.inl ha)

theorem loadStep_keys_char (fex : String → Bool) (dec : String → Except Unit Img)
    (acc : List (String × Img × String)) (host a : String)
    (ha : a ∈ (loadStep fex dec acc host).map Prod.fst) :
    a ∈ acc.map Prod.fst ∨ ((a = host ∨ a = _strip_www host) ∧ fex a = true) := by
  unfold loadStep at ha
  by_cases hh : host = ("")
  · rw [if_pos hh] at ha; exact Or.inl ha
  · rw [if_neg hh] at ha
    dsimp only at ha
    rcases hfind : List.find? (fun c => fex c)
        ([host] ++ if _strip_www host ≠ host then [_strip_www host] else []) with _ | c <;>
      rw [hfind] at ha
    · exact Or.inl ha
    · dsimp only at ha
      rcases hdec : dec c with e | img <;> rw [hdec] at ha <;> dsimp only at ha
      · exact Or.inl ha
      · rcases (dictInsert_keys_mem acc c a _).mp ha with h | h
        · exact Or.inl h
        · subst h
          have hfex : fex a = true := by simpa using List.find?_some hfind
          have hcand : a ∈ [host] ++ (if _strip_www host ≠ host then [_strip_www host] else []) :=
            List.mem_of_find?_eq_some hfind
          refine Or.inr ⟨?_, hfex⟩
          rcases List.mem_append.mp hcand with h1 | h2
          · exact Or.inl (by simpa using h1)
          · split at h2
            · exact Or.inr (by simpa using h2)
            · simp at h2

theorem load_foldl_keys_mono (fex : String → Bool) (dec : String → Except Unit Img)
    (hs : List String) (acc : List (String × Img × String)) (a : String)
    (ha : a ∈ acc.map Prod.fst) :
    a ∈ (hs.foldl (loadStep fex dec) acc).map Prod.fst := by
  induction hs generalizing acc with
  | nil => exact ha
  | cons h0 hs ih => exact ih _ (loadStep_keys_mono fex dec acc h0 a ha)

theorem load_foldl_keys_char (fex : String → Bool) (dec : String → Except Unit Img)
    (hs : List String) (acc : List (String × Img × String)) (a : String)
    (ha : a ∈ (hs.foldl (loadStep fex dec) acc).map Prod.fst) :
    a ∈ acc.map Prod.fst ∨
      ((∃ hst ∈ hs, a = hst ∨ a = _strip_www hst) ∧ fex a = true) := by
  induction hs generalizing acc with
  | nil => exact Or.inl ha
  | cons h0 hs ih =>
    rcases ih _ ha with h | ⟨⟨hst, hmem, hor⟩, hfex⟩
    · rcases loadStep_keys_char fex dec acc h0 a h with h | ⟨hor, hfex⟩
      · exact Or.inl h
      · exact Or.inr ⟨⟨h0, List.mem_cons_self h0 hs, hor⟩, hfex⟩
    · exact Or.inr ⟨⟨hst, List.mem_cons_of_mem h0 hmem, hor⟩, hfex⟩

/-- Every key of the loaded icon dict is an input hostname or the
`www.`-stripped form of one, and its icon file exists. -/
theorem load_keys_char (fex : String → Bool) (dec : String → Except Unit Img)
    (hostnames : List String) (a : String)
    (ha : a ∈ (load_icons_by_hostnames fex dec hostnames).map Prod.fst) :
    (∃ hst ∈ hostnames, a = hst ∨ a = _strip_www hst) ∧ fex a = true := by
  rcases load_foldl_keys_char fex dec hostnames [] a ha with h | h
  · simp at h
  · exact h

/-- When a hostname has an icon file under its exact name or its
`www.`-stripped name and decoding succeeds, the matched candidate becomes
a key of the loaded icon dict. -/
theorem loadStep_inserts (fex : String → Bool) (dec : String → Except Unit Img)
    (acc : List (String × Img × String)) (host : String) (hne : host ≠ (""))
    (hex : fex host = true ∨ fex (_strip_www host) = true)
    (hdec : ∀ c, ∃ i, dec c = .ok i) :
    ∃ c, (c = host ∨ c = _strip_www host) ∧
      c ∈ (loadStep fex dec acc host).map Prod.fst := by
  unfold loadStep
  rw [if_neg hne]
  dsimp only
  have hfind : ∃ c, (c = host ∨ c = _strip_www host) ∧
      List.find? (fun c => fex c)
        ([host] ++ if _strip_www host ≠ host then [_strip_www host] else []) = some c := by
    rcases hfh : fex host with _ | _
    · have hst : fex (_strip_www host) = true := by
        rcases hex with h | h
        · rw [hfh] at h; cases h
        · exact h
      have hss : _strip_www host ≠ host := by
        intro he
        rw [he, hfh] at hst
        cases hst
      refine ⟨_strip_www host, Or.inr rfl, ?_⟩
      rw [if_pos hss]
      show List.find? (fun c => fex c) (host :: [_strip_www host]) = some (_strip_www host)
      rw [List.find?_cons_of_neg _ (by simp [hfh])]
      rw [List.find?_cons_of_pos _ (by simpa using hst)]
    · refine ⟨host, Or.inl rfl, ?_⟩
      show List.find? (fun c => fex c)
        (host :: (if _strip_www host ≠ host then [_strip_www host] else [])) = some host
      rw [List.find?_cons_of_pos _ (by simpa using hfh)]
  obtain ⟨c, hcOr, hfd⟩ := hfind
  rw [hfd]
  dsimp only
  obtain ⟨i, hi⟩ := hdec c
  rw [hi]
  dsimp only
  exact ⟨c, hcOr, (dictInsert_keys_mem acc c c _).mpr (Or.inr rfl)⟩

theorem load_foldl_mem_of (fex : String → Bool) (dec : String → Except Unit Img)
    (hs : List String) (acc : List (String × Img × String)) (host : String)
    (hmem : host ∈ hs) (hne : host ≠ (""))
    (hex : fex host = true ∨ fex (_strip_www host) = true)
    (hdec : ∀ c, ∃ i, dec c = .ok i) :
    ∃ c, (c = host ∨ c = _strip_www host) ∧
      c ∈ (hs.foldl (loadStep fex dec) acc).map Prod.fst := by
  induction hs generalizing acc with
  | nil => cases hmem
  | cons h0 hs ih =>
    rcases List.mem_cons.mp hmem with h | h
    · subst h
      obtain ⟨c, hcOr, hcMem⟩ := loadStep_inserts fex dec acc host hne hex hdec
      exact ⟨c, hcOr, load_foldl_keys_mono fex dec hs _ c hcMem⟩
    · exact ih _ h

/-- C2 counterexample: with input hostname set `www.example.com` and an
icon file present only under the stripped name `example.com.png`, the
pipeline's PositionMap has the key `example.com`, which is not a member of
the input hostname set. -/
theorem pipeline_key_space_cex :
    ("example.com" : String) ∈ (posOf (build_sprite_and_positions okEnc okEnc
      (load_icons_by_hostnames fexStripped decOk ["www.example.com"]))).map Prod.fst ∧
    ("example.com" : String) ∉ (["www.example.com"] : List String) := by
  constructor
  · rw [show (posOf (build_sprite_and_positions okEnc okEnc
      (load_icons_by_hostnames fexStripped decOk ["www.example.com"]))).map Prod.fst =
        ["example.com"] from rfl]
    exact List.mem_singleton.mpr rfl
  · decide

/-- C2 (amended): every key of the pipeline's PositionMap is an input
hostname or the `www.`-stripped form of an input hostname, and a hostname
whose icon file does not exist in either form is simply absent from the
PositionMap (never an error). -/
theorem pipeline_key_space_amended (fex : String → Bool) (dec : String → Except Unit Img)
    (hostnames : List String) (encodeWEBP encodeJPEG : Img → Except Unit (List Nat))
    (uri bg : String) (pos : List (String × (Nat × Nat))) (colors : List (String × String))
    (h : build_sprite_and_positions encodeWEBP encodeJPEG
      (load_icons_by_hostnames fex dec hostnames) = .ok (uri, bg, pos, colors)) :
    (∀ k ∈ pos.map Prod.fst, k ∈ hostnames ∨ k ∈ hostnames.map _strip_www) ∧
    (∀ hst ∈ hostnames, fex hst = false → fex (_strip_www hst) = false →
      hst ∉ pos.map Prod.fst) := by
  obtain ⟨hp, -, -⟩ := build_ok_components encodeWEBP encodeJPEG _ uri bg pos colors h
  have hkeys : ∀ k, k ∈ pos.map Prod.fst ↔
      k ∈ (load_icons_by_hostnames fex dec hostnames).map Prod.fst := by
    intro k
    rw [hp, sprite_positions_keys]
    exact sprite_hosts_mem _ k
  constructor
  · intro k hk
    obtain ⟨⟨hst, hmem, hor⟩, -⟩ := load_keys_char fex dec hostnames k ((hkeys k).mp hk)
    rcases hor with h1 | h1
    · exact Or.inl (h1 ▸ hmem)
    · exact Or.inr (h1 ▸ List.mem_map_of_mem _strip_www hmem)
  · intro hst hmem hf1 hf2 hk
    obtain ⟨-, hfex⟩ := load_keys_char fex dec hostnames hst ((hkeys hst).mp hk)
    rw [hf1] at hfex
    cases hfex

/-- Witness for C2 (amended) at a concrete pipeline run: the key
`example.com` comes from the stripped form of the input
`www.example.com`, and the unresolvable `nohost.com` is absent. -/
theorem pipeline_key_space_amended_witness :
    (("example.com" : String) ∈ (["www.example.com", "nohost.com"] : List String) ∨
      ("example.com" : String) ∈ (["www.example.com", "nohost.com"] : List String).map _strip_www) ∧
    ("nohost.com" : String) ∉ (posOf (build_sprite_and_positions okEnc okEnc
      (load_icons_by_hostnames fexStripped decOk ["www.example.com", "nohost.com"]))).map Prod.fst := by
  have h := pipeline_key_space_amended fexStripped decOk ["www.example.com", "nohost.com"]
    okEnc okEnc _ _ _ _ rfl
  exact ⟨h.1 ("example.com") (by decide), h.2 ("nohost.com") (by decide) rfl rfl⟩

/-- C3 counterexample: an icon file exists for `www.example.com` and the
site URL carries the bare hostname `example.com`, yet the pipeline
attaches no icon: the loader only ever strips `www.`, it never prepends
it, so the lookup fails in this direction. -/
theorem binder_www_fallback_cex :
    fexWww ("www.example.com") = true ∧
    _hostname siteEx.url = ("example.com") ∧
    (attach_icon_data_to_sites [siteEx]
      (posOf (build_sprite_and_positions okEnc okEnc
        (load_icons_by_hostnames fexWww decOk ["example.com"])))
      (colorsOf (build_sprite_and_positions okEnc okEnc
        (load_icons_by_hostnames fexWww decOk ["example.com"])))).map
      (fun t => t.icon_x) = [none] :=
  ⟨rfl, rfl, rfl⟩

/-- C3 (amended): the two-step exact-then-stripped lookup matches when the
icon file is named with the exact hostname of the site's URL or with its
`www.`-stripped form; in particular a site URL carrying `www.example.com`
is matched against an icon file `example.com.png`, and
`attach_icon_data_to_sites` attaches the icon position to that site.  (The
reverse direction, icon file named `www.example.com.png` with a bare-host
URL, does not match: see the counterexample.) -/
theorem binder_www_fallback_amended (fex : String → Bool) (dec : String → Except Unit Img)
    (hostnames : List String) (encodeWEBP encodeJPEG : Img → Except Unit (List Nat))
    (uri bg : String) (pos : List (String × (Nat × Nat))) (colors : List (String × String))
    (s : Site)
    (hmem : _hostname s.url ∈ hostnames)
    (hne : _hostname s.url ≠ (""))
    (hex : fex (_hostname s.url) = true ∨ fex (_strip_www (_hostname s.url)) = true)
    (hdec : ∀ c, ∃ i, dec c = .ok i)
    (h : build_sprite_and_positions encodeWEBP encodeJPEG
      (load_icons_by_hostnames fex dec hostnames) = .ok (uri, bg, pos, colors)) :
    (attach_icon_data_to_sites [s] pos colors).map (fun t => (t.icon_x).isSome) = [true] := by
  obtain ⟨hp, -, -⟩ := build_ok_components encodeWEBP encodeJPEG _ uri bg pos colors h
  obtain ⟨c, hcOr, hcKeys⟩ := load_foldl_mem_of fex dec hostnames [] (_hostname s.url)
    hmem hne hex hdec
  have hcPos : c ∈ pos.map Prod.fst := by
    rw [hp, sprite_positions_keys]
    exact (sprite_hosts_mem _ c).mpr hcKeys
  have hgoal : ((attachSite pos colors s).icon_x).isSome = true := by
    unfold attachSite
    dsimp only
    by_cases h1 : (List.lookup (_hostname s.url) pos).isSome = true
    · simp only [h1, if_true]
      obtain ⟨xy, hxy⟩ := Option.isSome_iff_exists.mp h1
      rw [hxy]
      rfl
    · simp only [Bool.not_eq_true] at h1
      simp only [h1, Bool.false_eq_true, if_false]
      have hc2 : c = _strip_www (_hostname s.url) := by
        rcases hcOr with h2 | h2
        · exfalso
          rw [h2] at hcPos
          rw [(lookup_isSome_iff _ pos).mpr hcPos] at h1
          cases h1
        · exact h2
      have h2 : (List.lookup (_strip_www (_hostname s.url)) pos).isSome = true :=
        (lookup_isSome_iff _ pos).mpr (hc2 ▸ hcPos)
      simp only [h2, if_true]
      obtain ⟨xy, hxy⟩ := Option.isSome_iff_exists.mp h2
      rw [hxy]
      rfl
  unfold attach_icon_data_to_sites
  simp only [List.map_cons, List.map_nil, List.map_map]
  rw [hgoal]

/-- Witness for C3 (amended): a site URL carrying `www.example.com`
matched against an icon directory holding `example.com.png`. -/
theorem binder_www_fallback_amended_witness :
    (attach_icon_data_to_sites
      [⟨"E", "https://www.example.com/", "C", [], none, none, none⟩]
      (posOf (build_sprite_and_positions okEnc okEnc
        (load_icons_by_hostnames fexStripped decOk ["www.example.com"])))
      (colorsOf (build_sprite_and_positions okEnc okEnc
        (load_icons_by_hostnames fexStripped decOk ["www.example.com"])))).map
      (fun t => (t.icon_x).isSome) = [true] :=
  binder_www_fallback_amended fexStripped decOk ["www.example.com"] okEnc okEnc _ _ _ _
    ⟨"E", "https://www.example.com/", "C", [], none, none, none⟩
    (by rw [show _hostname ("https://www.example.com/") = ("www.example.com") from rfl]
        exact List.mem_singleton.mpr rfl)
    (by decide)
    (Or.inr rfl)
    (fun c => ⟨img24, rfl⟩)
    rfl

end BuildPy
